import Mathlib

/-!
Verification of the storehouse-pg pool wrapper (PgPool / PgManager and the
registry lookup helpers) against its natural-language specification.

The embedding models the wrapper's observable state: the underlying pool's
counters and ended flag, the set of currently leased clients (identified by
the order in which their leases were created), and the event-emitter
registration list that the force-release broadcast iterates.  Clients are
identified by a monotonically increasing lease id; the emitter's
releaseAll listener list is the list of lease ids in registration order,
mirroring how Node's EventEmitter appends listeners and how emit iterates a
snapshot of them.
-/

set_option maxRecDepth 4000

namespace StorehousePg

/-- Argument accepted by client.release and releaseAll in the source:
JavaScript type Error | boolean | undefined. -/
inductive RelArg where
  | noarg : RelArg
  | boolArg : Bool → RelArg
  | errArg : String → RelArg
deriving DecidableEq, Repr

/-- JavaScript truthiness of a RelArg: undefined is falsy, a boolean is
itself, an Error object is truthy. -/
def RelArg.truthy : RelArg → Bool
  | .noarg => false
  | .boolArg b => b
  | .errArg _ => true

/-- State of a PgPool instance: the ended flag and counters of the underlying
pg Pool, the currently leased clients (lease ids, oldest first), the
event-emitter registration list for the releaseAll broadcast (lease ids in
registration order), a log of every force-release invocation performed by the
broadcast, and the next fresh lease id. -/
structure PoolState where
  ended : Bool
  idleCount : Nat
  waitingCount : Nat
  leased : List Nat
  registrations : List Nat
  forceLog : List (Nat × RelArg)
  nextId : Nat
deriving DecidableEq, Repr

/-- Pool.totalCount: clients held by the pool, idle plus leased. -/
def totalCount (s : PoolState) : Nat := s.idleCount + s.leased.length

/-- PgPool.connectPromise: acquire a client from the underlying pool (reusing
an idle connection when one exists, otherwise creating a new one), register
an onReleaseAll listener for it on the internal event emitter, and attach the
released listener that will deregister it.  Returns the lease id together
with the new state. -/
def connectPromise (s : PoolState) : Nat × PoolState :=
  let cid := s.nextId
  (cid,
    { s with
      idleCount := if 0 < s.idleCount then s.idleCount - 1 else s.idleCount
      leased := s.leased ++ [cid]
      registrations := s.registrations ++ [cid]
      nextId := cid + 1 })

/-- client.release(err) for a leased client: the pool takes the client back
(into the idle set when err is falsy, discarding the connection when err is
truthy), the pool emits release, the PgPool constructor's release handler
emits released on the client, and the released listener removes the client's
onReleaseAll registration from the event emitter.  Releasing a client that is
not currently leased changes nothing. -/
def releaseClient (s : PoolState) (cid : Nat) (err : RelArg) : PoolState :=
  if cid ∈ s.leased then
    { s with
      leased := s.leased.erase cid
      registrations := s.registrations.erase cid
      idleCount := if err.truthy then s.idleCount else s.idleCount + 1 }
  else s

/-- One onReleaseAll listener invocation during the releaseAll broadcast: the
invocation is logged and the listener calls client.release(err). -/
def onReleaseAll (s : PoolState) (cid : Nat) (err : RelArg) : PoolState :=
  releaseClient { s with forceLog := s.forceLog ++ [(cid, err)] } cid err

/-- PgPool.releaseAll(err): emits releaseAll on the internal event emitter.
Node's emit walks a snapshot of the current listener list in registration
order and invokes each listener, even though every invoked listener
deregisters itself during the walk. -/
def releaseAll (s : PoolState) (err : RelArg) : PoolState :=
  s.registrations.foldl (fun acc cid => onReleaseAll acc cid err) s

/-- Error raised by the underlying pg Pool when end is called twice. -/
inductive PoolError where
  | endedTwice : PoolError
deriving DecidableEq, Repr

/-- Pool.end: marks the pool ended and closes its idle connections; calling
end on an already ended pool raises. -/
def endPool (s : PoolState) : Except PoolError PoolState :=
  if s.ended then .error .endedTwice
  else .ok { s with ended := true, idleCount := 0 }

/-- PgManager.closeConnection(err): await releaseAll(err), then end the pool
only when its ended flag is not set. -/
def closeConnection (s : PoolState) (err : RelArg) : Except PoolError PoolState :=
  let s1 := releaseAll s err
  if !s1.ended then endPool s1 else .ok s1

/-- A JavaScript thrown value as healthCheck's catch block inspects it:
either an Error instance (message and stack) or any other value rendered by
String(error). -/
inductive JsError where
  | errorInstance : String → String → JsError
  | nonErrorValue : String → JsError
deriving DecidableEq, Repr

/-- error instanceof Error ? error.message : String(error). -/
def JsError.jsMessage : JsError → String
  | .errorInstance m _ => m
  | .nonErrorValue v => v

/-- error instanceof Error ? error.stack : String(error). -/
def JsError.stackOrString : JsError → String
  | .errorInstance _ st => st
  | .nonErrorValue v => v

/-- Outcome of the probe attempted by healthCheck, supplied by the
environment: the acquisition may throw, the probe query may throw, or both
succeed. -/
inductive ProbeOutcome where
  | success : ProbeOutcome
  | acquireFail : JsError → ProbeOutcome
  | queryFail : JsError → ProbeOutcome
deriving DecidableEq, Repr

/-- The details object of a PgHealthCheckResult (absent fields are none). -/
structure HealthDetails where
  name : String
  totalCount : Option Nat := none
  idleCount : Option Nat := none
  waitingCount : Option Nat := none
  latency : Option String := none
  error : Option String := none
  ended : Option Bool := none
deriving DecidableEq, Repr

/-- PgHealthCheckResult: healthy flag, message, details, optional latency in
milliseconds, and the timestamp taken at the start of the check. -/
structure PgHealthCheckResult where
  healthy : Bool
  message : String
  details : HealthDetails
  latency : Option Int := none
  timestamp : Nat
deriving DecidableEq, Repr

/-- Acquisition through PgPool.connect immediately followed by a release of
the acquired client with the given argument, as the healthCheck probe does. -/
def probeRelease (s : PoolState) (err : RelArg) : PoolState :=
  releaseClient (connectPromise s).2 (connectPromise s).1 err

/-- The try block of healthCheck: acquire a client through connect, run the
probe query, and on success release the client cleanly; on a query failure
release the client with the error flag (discarding the connection) and
rethrow; an acquisition failure throws before any client exists.  Returns the
caught error (if any) together with the pool state the catch block observes. -/
def tryProbe (s : PoolState) (oc : ProbeOutcome) : Option JsError × PoolState :=
  match oc with
  | .acquireFail e => (some e, s)
  | .queryFail e => (some e, probeRelease s (.boolArg true))
  | .success => (none, probeRelease s .noarg)

/-- PgManager.healthCheck: record start, short-circuit when the pool has
ended, otherwise run the probe inside a try/catch that converts every thrown
error into an unhealthy result record.  The Except layer carries any error
the method would propagate to its caller; the catch-all means it never does. -/
def healthCheck (name : String) (s : PoolState) (oc : ProbeOutcome)
    (start now : Nat) : Except JsError (PgHealthCheckResult × PoolState) :=
  if s.ended then
    .ok ({ healthy := false
           message := "Connection pool has ended"
           details := { name := name, ended := some true }
           timestamp := start }, s)
  else
    match tryProbe s oc with
    | (none, s2) =>
        let latency : Int := (now : Int) - (start : Int)
        .ok ({ healthy := true
               message := "PostgreSQL connection is healthy"
               details := { name := name
                            totalCount := some (totalCount s2)
                            idleCount := some s2.idleCount
                            waitingCount := some s2.waitingCount
                            latency := some (toString latency ++ "ms") }
               latency := some latency
               timestamp := start }, s2)
    | (some e, s2) =>
        let latency : Int := (now : Int) - (start : Int)
        .ok ({ healthy := false
               message := "PostgreSQL health check failed: " ++ e.jsMessage
               details := { name := name
                            totalCount := some (totalCount s2)
                            idleCount := some s2.idleCount
                            waitingCount := some s2.waitingCount
                            error := some e.stackOrString }
               latency := some latency
               timestamp := start }, s2)

/-- PgManager.isConnected: the pool has not ended and holds at least one
client. -/
def isConnected (s : PoolState) : Bool :=
  !s.ended && decide (0 < totalCount s)

/-- Hexadecimal digit character for a nibble (0-9 then a-f). -/
def hexDigitChar (n : Nat) : Char :=
  if n < 10 then Char.ofNat (48 + n) else Char.ofNat (87 + n)

/-- Two-character lowercase hexadecimal rendering of one byte, as done by
Buffer.toString with encoding hex. -/
def byteToHex (b : Nat) : String :=
  String.mk [hexDigitChar (b / 16 % 16), hexDigitChar (b % 16)]

/-- randomBytes(n).toString applied with encoding hex: each byte becomes two
lowercase hex characters. -/
def bytesToHex : List Nat → String
  | [] => ""
  | b :: bs => byteToHex b ++ bytesToHex bs

/-- The generated fallback identity of a PgManager: the literal prefix, the
construction timestamp from Date.now, an underscore, and the hex rendering of
six random bytes. -/
def generatedName (nowMs : Nat) (randomHex : String) : String :=
  "Pg " ++ toString nowMs ++ "_" ++ randomHex

/-- JavaScript a || b for an optional string a: the supplied string when it
is truthy (present and nonempty), otherwise the default. -/
def jsStringOr (v : Option String) (d : String) : String :=
  match v with
  | some s => if s = "" then d else s
  | none => d

/-- The settings accepted by the PgManager constructor, restricted to the
field the name assignment inspects. -/
structure PgManagerArg where
  name : Option String
deriving DecidableEq, Repr

/-- The name the PgManager constructor assigns:
settings.name || (generated timestamp-and-random identity). -/
def managerNameOf (settings : PgManagerArg) (nowMs : Nat) (randomSix : List Nat) : String :=
  jsStringOr settings.name (generatedName nowMs (bytesToHex randomSix))

/-- A PgManager as stored in a registry: its name and its pool state. -/
structure PgManagerModel where
  name : String
  pool : PoolState
deriving DecidableEq, Repr

/-- A value a registry may resolve a name to: a PgManager instance, or some
other manager object that is not an instance of PgManager. -/
inductive RegistryEntry where
  | pgManagerEntry : PgManagerModel → RegistryEntry
  | otherManager : String → RegistryEntry
deriving DecidableEq, Repr

/-- The external registry collaborator: its default manager name and its
name-to-manager map. -/
structure Registry where
  defaultManager : String
  managers : String → Option RegistryEntry

/-- Modelled from the spec: the registry collaborator's manager lookup
(registry.getManager(name?) resolves to Manager or absent, spec section 6);
the effective name is the supplied one when truthy, else defaultManager.
The @storehouse/core Registry implementation is not part of this repository. -/
def Registry.resolveManager (reg : Registry) (nm : Option String) : Option RegistryEntry :=
  reg.managers (jsStringOr nm reg.defaultManager)

/-- Failures raised by the lookup helpers: ManagerNotFoundError and
InvalidManagerConfigError from @storehouse/core, carrying their message. -/
inductive LookupError where
  | managerNotFound : String → LookupError
  | invalidManagerConfig : String → LookupError
deriving DecidableEq, Repr

/-- getManager(registry, managerName?): look the manager up in the registry;
throw ManagerNotFoundError when nothing resolves, throw
InvalidManagerConfigError when the resolved object is not a PgManager
instance, otherwise return the resolved manager. -/
def getManager (reg : Registry) (managerName : Option String) :
    Except LookupError PgManagerModel :=
  match reg.resolveManager managerName with
  | none => .error (.managerNotFound (jsStringOr managerName reg.defaultManager))
  | some (.pgManagerEntry m) => .ok m
  | some (.otherManager _) =>
      .error (.invalidManagerConfig
        ("Manager \"" ++ jsStringOr managerName reg.defaultManager ++
          "\" is not instance of PGManager"))

/-- Modelled from the spec: the registry collaborator's connection resolution
(registry.getConnection(name?) resolves to a promise of a Client or absent,
spec section 6).  Per section 4.5 it resolves the manager the same way as the
manager lookup — absent when nothing resolves, the capability check failing
when the resolved object is not a pool-backed manager — and then acquires a
client from the resolved manager's pool.  The @storehouse/core Registry
implementation is not part of this repository. -/
def Registry.resolveConnection (reg : Registry) (nm : Option String) :
    Except LookupError (Option Nat) :=
  match reg.resolveManager nm with
  | none => .ok none
  | some (.pgManagerEntry m) => .ok (some (connectPromise m.pool).1)
  | some (.otherManager _) =>
      .error (.invalidManagerConfig
        ("Manager \"" ++ jsStringOr nm reg.defaultManager ++
          "\" is not instance of PGManager"))

/-- getConnection(registry, managerName?): await the registry's connection
resolution (propagating anything it throws); throw ManagerNotFoundError when
it yields nothing, otherwise return the acquired client. -/
def getConnection (reg : Registry) (managerName : Option String) :
    Except LookupError Nat :=
  match reg.resolveConnection managerName with
  | .error e => .error e
  | .ok none => .error (.managerNotFound (jsStringOr managerName reg.defaultManager))
  | .ok (some c) => .ok c

/-- Operations through which a PgPool or PgManager state evolves: a promise-
or callback-style acquisition (both register the same listener pair), an
organic client release, the releaseAll broadcast, a direct pool end, a
closeConnection call, and a healthCheck call. -/
inductive PoolOp where
  | connectOp : PoolOp
  | releaseOp : Nat → RelArg → PoolOp
  | releaseAllOp : RelArg → PoolOp
  | endOp : PoolOp
  | closeOp : RelArg → PoolOp
  | healthOp : String → ProbeOutcome → Nat → Nat → PoolOp
deriving Repr

/-- One step of the pool wrapper's evolution.  Operations whose underlying
call raises leave the state unchanged. -/
def step (s : PoolState) (op : PoolOp) : PoolState :=
  match op with
  | .connectOp => (connectPromise s).2
  | .releaseOp cid err => releaseClient s cid err
  | .releaseAllOp err => releaseAll s err
  | .endOp =>
      match endPool s with
      | .ok s' => s'
      | .error _ => s
  | .closeOp err =>
      match closeConnection s err with
      | .ok s' => s'
      | .error _ => s
  | .healthOp n oc t0 t1 =>
      match healthCheck n s oc t0 t1 with
      | .ok r => r.2
      | .error _ => s

/-- The state of a freshly constructed pool: no connections, no leases, no
registrations. -/
def initialPool : PoolState :=
  { ended := false, idleCount := 0, waitingCount := 0, leased := [],
    registrations := [], forceLog := [], nextId := 0 }

/-- The state reached by running a sequence of operations from construction. -/
def runOps (ops : List PoolOp) : PoolState :=
  ops.foldl step initialPool

/-- Structural invariant of the pool wrapper: the registration list and the
lease list hold no duplicates, every registration belongs to a leased client,
and every lease id is below the fresh-id counter. -/
def Inv (s : PoolState) : Prop :=
  s.registrations.Nodup ∧ s.leased.Nodup ∧
  (∀ cid ∈ s.registrations, cid ∈ s.leased) ∧
  (∀ cid ∈ s.leased, cid < s.nextId)

instance (s : PoolState) : Decidable (Inv s) := by
  unfold Inv; infer_instance

theorem releaseClient_ended (s : PoolState) (cid : Nat) (err : RelArg) :
    (releaseClient s cid err).ended = s.ended := by
  unfold releaseClient; split <;> rfl

theorem releaseClient_forceLog (s : PoolState) (cid : Nat) (err : RelArg) :
    (releaseClient s cid err).forceLog = s.forceLog := by
  unfold releaseClient; split <;> rfl

theorem releaseClient_nextId (s : PoolState) (cid : Nat) (err : RelArg) :
    (releaseClient s cid err).nextId = s.nextId := by
  unfold releaseClient; split <;> rfl

theorem onReleaseAll_ended (s : PoolState) (cid : Nat) (err : RelArg) :
    (onReleaseAll s cid err).ended = s.ended := by
  unfold onReleaseAll; rw [releaseClient_ended]

theorem foldl_onReleaseAll_ended (err : RelArg) :
    ∀ (ids : List Nat) (s : PoolState),
      (ids.foldl (fun acc cid => onReleaseAll acc cid err) s).ended = s.ended
  | [], _ => rfl
  | a :: t, s => by
      rw [List.foldl_cons, foldl_onReleaseAll_ended err t, onReleaseAll_ended]

theorem releaseAll_ended (s : PoolState) (err : RelArg) :
    (releaseAll s err).ended = s.ended :=
  foldl_onReleaseAll_ended err s.registrations s

theorem releaseClient_inv (s : PoolState) (cid : Nat) (err : RelArg)
    (h : Inv s) : Inv (releaseClient s cid err) := by
  obtain ⟨hrnd, hlnd, hsub, hbnd⟩ := h
  unfold releaseClient
  split
  · refine ⟨hrnd.erase cid, hlnd.erase cid, ?_, ?_⟩
    · intro x hx
      have hxne : x ≠ cid := by
        intro hxy; exact hrnd.not_mem_erase (hxy ▸ hx)
      exact (List.mem_erase_of_ne hxne).mpr
        (hsub x (List.erase_subset cid s.registrations hx))
    · intro x hx
      exact hbnd x (List.erase_subset cid s.leased hx)
  · exact ⟨hrnd, hlnd, hsub, hbnd⟩

theorem onReleaseAll_inv (s : PoolState) (cid : Nat) (err : RelArg)
    (h : Inv s) : Inv (onReleaseAll s cid err) :=
  releaseClient_inv _ cid err h

theorem foldl_onReleaseAll_inv (err : RelArg) :
    ∀ (ids : List Nat) (s : PoolState), Inv s →
      Inv (ids.foldl (fun acc cid => onReleaseAll acc cid err) s)
  | [], _, h => h
  | a :: t, s, h => by
      rw [List.foldl_cons]
      exact foldl_onReleaseAll_inv err t _ (onReleaseAll_inv s a err h)

theorem releaseAll_inv (s : PoolState) (err : RelArg) (h : Inv s) :
    Inv (releaseAll s err) :=
  foldl_onReleaseAll_inv err s.registrations s h

theorem connectPromise_inv (s : PoolState) (h : Inv s) :
    Inv (connectPromise s).2 := by
  obtain ⟨hrnd, hlnd, hsub, hbnd⟩ := h
  have hfreshL : s.nextId ∉ s.leased := fun hm => lt_irrefl _ (hbnd _ hm)
  have hfreshR : s.nextId ∉ s.registrations := fun hm => hfreshL (hsub _ hm)
  refine ⟨?_, ?_, ?_, ?_⟩
  · show (s.registrations ++ [s.nextId]).Nodup
    rw [List.nodup_append]
    refine ⟨hrnd, List.nodup_singleton _, ?_⟩
    intro x hx hx1
    rw [List.mem_singleton] at hx1
    exact hfreshR (hx1 ▸ hx)
  · show (s.leased ++ [s.nextId]).Nodup
    rw [List.nodup_append]
    refine ⟨hlnd, List.nodup_singleton _, ?_⟩
    intro x hx hx1
    rw [List.mem_singleton] at hx1
    exact hfreshL (hx1 ▸ hx)
  · intro x hx
    simp only [connectPromise, List.mem_append, List.mem_singleton] at hx ⊢
    rcases hx with hx | hx
    · exact Or.inl (hsub x hx)
    · exact Or.inr hx
  · intro x hx
    simp only [connectPromise, List.mem_append, List.mem_singleton] at hx ⊢
    rcases hx with hx | hx
    · exact Nat.lt_succ_of_lt (hbnd x hx)
    · exact hx ▸ Nat.lt_succ_self _

theorem probeRelease_inv (s : PoolState) (err : RelArg) (h : Inv s) :
    Inv (probeRelease s err) :=
  releaseClient_inv _ _ _ (connectPromise_inv s h)

theorem foldl_onReleaseAll_spec (err : RelArg) :
    ∀ (ids : List Nat) (s : PoolState), ids.Nodup →
      (∀ cid ∈ ids, cid ∈ s.registrations) →
      s.registrations.Nodup → s.leased.Nodup →
      (∀ cid ∈ s.registrations, cid ∈ s.leased) →
      (ids.foldl (fun acc cid => onReleaseAll acc cid err) s).forceLog
          = s.forceLog ++ ids.map (fun cid => (cid, err)) ∧
      (ids.foldl (fun acc cid => onReleaseAll acc cid err) s).registrations
          = ids.foldl (fun l cid => l.erase cid) s.registrations ∧
      (ids.foldl (fun acc cid => onReleaseAll acc cid err) s).leased ⊆ s.leased ∧
      (∀ cid ∈ ids, cid ∉ (ids.foldl (fun acc cid => onReleaseAll acc cid err) s).leased)
  | [], s, _, _, _, _, _ => by
      refine ⟨by simp, rfl, fun x hx => hx, by simp⟩
  | a :: t, s, hnd, hmem, hrnd, hlnd, hsub => by
      have hat : a ∉ t := (List.nodup_cons.mp hnd).1
      have htnd : t.Nodup := (List.nodup_cons.mp hnd).2
      have haR : a ∈ s.registrations := hmem a (List.mem_cons_self a t)
      have haL : a ∈ s.leased := hsub a haR
      have hfl : (onReleaseAll s a err).forceLog = s.forceLog ++ [(a, err)] := by
        simp [onReleaseAll, releaseClient, haL]
      have hrg : (onReleaseAll s a err).registrations = s.registrations.erase a := by
        simp [onReleaseAll, releaseClient, haL]
      have hls : (onReleaseAll s a err).leased = s.leased.erase a := by
        simp [onReleaseAll, releaseClient, haL]
      have hmem' : ∀ cid ∈ t, cid ∈ (onReleaseAll s a err).registrations := by
        intro x hx
        rw [hrg]
        have hxa : x ≠ a := fun hxe => hat (hxe ▸ hx)
        exact (List.mem_erase_of_ne hxa).mpr (hmem x (List.mem_cons_of_mem a hx))
      have hrnd' : (onReleaseAll s a err).registrations.Nodup := by
        rw [hrg]; exact hrnd.erase a
      have hlnd' : (onReleaseAll s a err).leased.Nodup := by
        rw [hls]; exact hlnd.erase a
      have hsub' : ∀ cid ∈ (onReleaseAll s a err).registrations,
          cid ∈ (onReleaseAll s a err).leased := by
        intro x hx
        rw [hrg] at hx
        rw [hls]
        have hxa : x ≠ a := fun hxe => hrnd.not_mem_erase (hxe ▸ hx)
        exact (List.mem_erase_of_ne hxa).mpr
          (hsub x (List.erase_subset a s.registrations hx))
      obtain ⟨H1, H2, H3, H4⟩ :=
        foldl_onReleaseAll_spec err t (onReleaseAll s a err) htnd hmem' hrnd' hlnd' hsub'
      rw [List.foldl_cons]
      refine ⟨?_, ?_, ?_, ?_⟩
      · rw [H1, hfl, List.map_cons, List.append_assoc, List.singleton_append]
      · rw [H2, hrg, List.foldl_cons]
      · exact fun x hx => (hls ▸ List.erase_subset a s.leased) (H3 hx)
      · intro x hx
        rcases List.mem_cons.mp hx with hx | hx
        · intro hmemfin
          exact (hls ▸ hlnd.not_mem_erase) (hx ▸ H3 hmemfin)
        · exact H4 x hx

theorem foldl_erase_self :
    ∀ (l : List Nat), l.Nodup → l.foldl (fun acc a => acc.erase a) l = []
  | [], _ => rfl
  | a :: t, h => by
      have he : (a :: t).erase a = t := List.erase_cons_head a t
      rw [List.foldl_cons, he]
      exact foldl_erase_self t (List.nodup_cons.mp h).2

theorem releaseAll_spec (s : PoolState) (err : RelArg) (h : Inv s) :
    (releaseAll s err).forceLog
        = s.forceLog ++ s.registrations.map (fun cid => (cid, err)) ∧
    (releaseAll s err).registrations = [] ∧
    (∀ cid ∈ s.registrations, cid ∉ (releaseAll s err).leased) ∧
    (releaseAll s err).ended = s.ended := by
  obtain ⟨hrnd, hlnd, hsub, _⟩ := h
  obtain ⟨H1, H2, H3, H4⟩ :=
    foldl_onReleaseAll_spec err s.registrations s hrnd (fun _ hx => hx) hrnd hlnd hsub
  exact ⟨H1, by rw [releaseAll, H2]; exact foldl_erase_self s.registrations hrnd,
    H4, releaseAll_ended s err⟩

theorem initialPool_inv : Inv initialPool := by decide

theorem step_inv (s : PoolState) (op : PoolOp) (h : Inv s) : Inv (step s op) := by
  cases op with
  | connectOp => exact connectPromise_inv s h
  | releaseOp cid err => exact releaseClient_inv s cid err h
  | releaseAllOp err => exact releaseAll_inv s err h
  | endOp =>
      by_cases he : s.ended = true <;> simp [step, endPool, he] <;> exact h
  | closeOp err =>
      have hra := releaseAll_inv s err h
      by_cases he : (releaseAll s err).ended = true <;>
        simp [step, closeConnection, endPool, he] <;> exact hra
  | healthOp n oc t0 t1 =>
      by_cases he : s.ended = true
      · simpa [step, healthCheck, he] using h
      · cases oc with
        | success =>
            simpa [step, healthCheck, tryProbe, he] using probeRelease_inv s .noarg h
        | acquireFail e => simpa [step, healthCheck, tryProbe, he] using h
        | queryFail e =>
            simpa [step, healthCheck, tryProbe, he] using
              probeRelease_inv s (.boolArg true) h

theorem foldl_step_inv : ∀ (ops : List PoolOp) (s : PoolState), Inv s →
    Inv (ops.foldl step s)
  | [], _, h => h
  | op :: t, s, h => by
      rw [List.foldl_cons]
      exact foldl_step_inv t _ (step_inv s op h)

theorem runOps_inv (ops : List PoolOp) : Inv (runOps ops) :=
  foldl_step_inv ops initialPool initialPool_inv

theorem healthCheck_ended_eq (name : String) (s : PoolState) (oc : ProbeOutcome)
    (start now : Nat) (he : s.ended = true) :
    healthCheck name s oc start now =
      .ok ({ healthy := false
             message := "Connection pool has ended"
             details := { name := name, ended := some true }
             timestamp := start }, s) := by
  unfold healthCheck
  rw [if_pos he]

theorem healthCheck_success_eq (name : String) (s : PoolState) (start now : Nat)
    (he : s.ended = false) :
    healthCheck name s .success start now =
      .ok ({ healthy := true
             message := "PostgreSQL connection is healthy"
             details := { name := name
                          totalCount := some (totalCount (probeRelease s .noarg))
                          idleCount := some (probeRelease s .noarg).idleCount
                          waitingCount := some (probeRelease s .noarg).waitingCount
                          latency := some (toString ((now : Int) - (start : Int)) ++ "ms") }
             latency := some ((now : Int) - (start : Int))
             timestamp := start }, probeRelease s .noarg) := by
  unfold healthCheck
  rw [if_neg (by simp [he])]
  rfl

theorem healthCheck_queryFail_eq (name : String) (s : PoolState) (e : JsError)
    (start now : Nat) (he : s.ended = false) :
    healthCheck name s (.queryFail e) start now =
      .ok ({ healthy := false
             message := "PostgreSQL health check failed: " ++ e.jsMessage
             details := { name := name
                          totalCount := some (totalCount (probeRelease s (.boolArg true)))
                          idleCount := some (probeRelease s (.boolArg true)).idleCount
                          waitingCount := some (probeRelease s (.boolArg true)).waitingCount
                          error := some e.stackOrString }
             latency := some ((now : Int) - (start : Int))
             timestamp := start }, probeRelease s (.boolArg true)) := by
  unfold healthCheck
  rw [if_neg (by simp [he])]
  rfl

theorem healthCheck_acquireFail_eq (name : String) (s : PoolState) (e : JsError)
    (start now : Nat) (he : s.ended = false) :
    healthCheck name s (.acquireFail e) start now =
      .ok ({ healthy := false
             message := "PostgreSQL health check failed: " ++ e.jsMessage
             details := { name := name
                          totalCount := some (totalCount s)
                          idleCount := some s.idleCount
                          waitingCount := some s.waitingCount
                          error := some e.stackOrString }
             latency := some ((now : Int) - (start : Int))
             timestamp := start }, s) := by
  unfold healthCheck
  rw [if_neg (by simp [he])]
  rfl

theorem probeRelease_state (s : PoolState) (err : RelArg) (h : Inv s) :
    (probeRelease s err).leased = s.leased ∧
    (probeRelease s err).registrations = s.registrations ∧
    (probeRelease s err).idleCount =
      (if err.truthy then (if 0 < s.idleCount then s.idleCount - 1 else s.idleCount)
       else (if 0 < s.idleCount then s.idleCount - 1 else s.idleCount) + 1) ∧
    (probeRelease s err).waitingCount = s.waitingCount ∧
    (probeRelease s err).ended = s.ended ∧
    (probeRelease s err).forceLog = s.forceLog := by
  obtain ⟨hrnd, hlnd, hsub, hbnd⟩ := h
  have hfreshL : s.nextId ∉ s.leased := fun hm => lt_irrefl _ (hbnd _ hm)
  have hfreshR : s.nextId ∉ s.registrations := fun hm => hfreshL (hsub _ hm)
  have hmem : (connectPromise s).1 ∈ (connectPromise s).2.leased := by
    show s.nextId ∈ s.leased ++ [s.nextId]
    simp
  unfold probeRelease releaseClient
  rw [if_pos hmem]
  refine ⟨?_, ?_, ?_, rfl, rfl, rfl⟩
  · show (s.leased ++ [s.nextId]).erase s.nextId = s.leased
    rw [List.erase_append_right _ hfreshL, List.erase_cons_head, List.append_nil]
  · show (s.registrations ++ [s.nextId]).erase s.nextId = s.registrations
    rw [List.erase_append_right _ hfreshR, List.erase_cons_head, List.append_nil]
  · show (if err.truthy then _ else _) = _
    rfl

/-- C1: releaseAll(err) invokes each currently registered client's
force-release listener with err exactly once, in registration (acquisition)
order: the force-release log grows by exactly the registration list paired
with err, each registered lease id occurs exactly once in that suffix, the
registration set is empty afterwards, and releaseAll on an empty registration
set is a no-op.  The invariant hypothesis holds in every reachable state. -/
theorem releaseAll_broadcasts_in_order_then_empties (s : PoolState) (err : RelArg)
    (h : Inv s) :
    (releaseAll s err).forceLog
        = s.forceLog ++ s.registrations.map (fun cid => (cid, err)) ∧
    (releaseAll s err).registrations = [] ∧
    (∀ cid ∈ s.registrations,
        (((releaseAll s err).forceLog.drop s.forceLog.length).map Prod.fst).count cid
          = 1) ∧
    (s.registrations = [] → releaseAll s err = s) := by
  obtain ⟨H1, H2, H3, H4⟩ := releaseAll_spec s err h
  refine ⟨H1, H2, ?_, ?_⟩
  · intro cid hcid
    rw [H1, List.drop_left, List.map_map]
    have hid : (Prod.fst ∘ fun cid => ((cid, err) : Nat × RelArg)) = id := rfl
    rw [hid, List.map_id]
    exact List.count_eq_one_of_mem h.1 hcid
  · intro hempty
    simp only [releaseAll, hempty, List.foldl_nil]

/-- Concrete pool state with two leased, registered clients. -/
def c1State : PoolState :=
  { ended := false, idleCount := 0, waitingCount := 0, leased := [0, 1],
    registrations := [0, 1], forceLog := [], nextId := 2 }

/-- Witness for C1 at a concrete state with two registered clients. -/
theorem releaseAll_broadcasts_witness :
    Inv c1State ∧ (releaseAll c1State RelArg.noarg).registrations = [] :=
  ⟨by decide,
    (releaseAll_broadcasts_in_order_then_empties c1State RelArg.noarg (by decide)).2.1⟩

/-- C2: healthCheck never raises: for every pool state, probe outcome and
clock readings it returns an ok PgHealthCheckResult, and every failure mode
is encoded in the returned record: the healthy flag is false exactly when the
pool has ended or the probe did not succeed, an ended pool is flagged in
details.ended, and a thrown acquisition or probe-query error is recorded in
details.error. -/
theorem healthCheck_never_raises (name : String) (s : PoolState) (oc : ProbeOutcome)
    (start now : Nat) :
    ∃ r s', healthCheck name s oc start now = .ok (r, s') ∧
      (r.healthy = false ↔ (s.ended = true ∨ oc ≠ .success)) ∧
      (s.ended = true → r.details.ended = some true) ∧
      (∀ e, s.ended = false → (oc = .acquireFail e ∨ oc = .queryFail e) →
        r.details.error = some e.stackOrString) := by
  cases hb : s.ended with
  | true =>
      refine ⟨_, _, healthCheck_ended_eq name s oc start now hb, by simp, fun _ => rfl, ?_⟩
      intro e hse _
      exact Bool.noConfusion hse
  | false =>
      cases oc with
      | success =>
          refine ⟨_, _, healthCheck_success_eq name s start now hb, by simp [hb], ?_, ?_⟩
          · intro hcontra
            exact Bool.noConfusion hcontra
          · intro e _ hor
            rcases hor with hc | hc <;> exact ProbeOutcome.noConfusion hc
      | acquireFail e0 =>
          refine ⟨_, _, healthCheck_acquireFail_eq name s e0 start now hb, by simp, ?_, ?_⟩
          · intro hcontra
            exact Bool.noConfusion hcontra
          · intro e _ hor
            rcases hor with hc | hc
            · injection hc with h
              rw [h]
            · exact ProbeOutcome.noConfusion hc
      | queryFail e0 =>
          refine ⟨_, _, healthCheck_queryFail_eq name s e0 start now hb, by simp, ?_, ?_⟩
          · intro hcontra
            exact Bool.noConfusion hcontra
          · intro e _ hor
            rcases hor with hc | hc
            · exact ProbeOutcome.noConfusion hc
            · injection hc with h
              rw [h]

/-- Witness for C2 at a concrete ended state. -/
theorem healthCheck_never_raises_witness :
    ∃ r s', healthCheck "db" { c1State with ended := true } .success 3 10 = .ok (r, s') := by
  obtain ⟨r, s', hr, -, -, -⟩ :=
    healthCheck_never_raises "db" { c1State with ended := true } .success 3 10
  exact ⟨r, s', hr⟩

/-- C3: closeConnection(err) performs releaseAll(err) and then ends the pool
only when its ended flag is not set: the first call always succeeds and
leaves the pool ended, and every subsequent call succeeds, performs only the
releaseAll (its result is exactly the releaseAll of the current state,
skipping end), and leaves the pool ended. -/
theorem closeConnection_repeat_safe (s : PoolState) (e1 e2 : RelArg) :
    ∃ s1, closeConnection s e1 = .ok s1 ∧ s1.ended = true ∧
      closeConnection s1 e2 = .ok (releaseAll s1 e2) ∧
      (releaseAll s1 e2).ended = true := by
  by_cases hb : (releaseAll s e1).ended = true
  · have h2 : (releaseAll (releaseAll s e1) e2).ended = true := by
      rw [releaseAll_ended]; exact hb
    exact ⟨releaseAll s e1, by simp [closeConnection, hb], hb,
      by simp [closeConnection, h2], h2⟩
  · have hbf : (releaseAll s e1).ended = false := by simpa using hb
    refine ⟨{ releaseAll s e1 with ended := true, idleCount := 0 }, ?_, rfl, ?_, ?_⟩
    · simp [closeConnection, endPool, hbf]
    · have h2 : (releaseAll { releaseAll s e1 with ended := true, idleCount := 0 } e2).ended
          = true := by
        rw [releaseAll_ended]
      simp [closeConnection, h2]
    · rw [releaseAll_ended]

/-- C4: in every reachable state of the pool wrapper the registration set has
size at most totalCount minus idleCount (it has no duplicates and registers
only leased clients, so every leased client has at most one live
registration), releasing a client removes its registration, and a client that
was organically released is never force-released again by a subsequent
releaseAll broadcast. -/
theorem reachable_registration_invariant (ops : List PoolOp) :
    (runOps ops).registrations.length
        ≤ totalCount (runOps ops) - (runOps ops).idleCount ∧
    (runOps ops).registrations.Nodup ∧
    (∀ cid ∈ (runOps ops).registrations, cid ∈ (runOps ops).leased) ∧
    (∀ cid err, cid ∉ (releaseClient (runOps ops) cid err).registrations) ∧
    (∀ cid err errAll,
        cid ∉ (((releaseAll (releaseClient (runOps ops) cid err) errAll).forceLog.drop
            (releaseClient (runOps ops) cid err).forceLog.length).map Prod.fst)) := by
  obtain ⟨hrnd, hlnd, hsub, hbnd⟩ := runOps_inv ops
  have h4 : ∀ cid err, cid ∉ (releaseClient (runOps ops) cid err).registrations := by
    intro cid err
    unfold releaseClient
    split
    · exact hrnd.not_mem_erase
    · intro hmemreg
      next hmem => exact hmem (hsub _ hmemreg)
  refine ⟨?_, hrnd, hsub, h4, ?_⟩
  · have hlen : (runOps ops).registrations.length ≤ (runOps ops).leased.length :=
      (List.subperm_of_subset hrnd hsub).length_le
    have htc : totalCount (runOps ops) - (runOps ops).idleCount
        = (runOps ops).leased.length := by
      unfold totalCount; omega
    rw [htc]
    exact hlen
  · intro cid err errAll
    obtain ⟨G1, G2, G3, G4⟩ :=
      releaseAll_spec (releaseClient (runOps ops) cid err) errAll
        (releaseClient_inv (runOps ops) cid err ⟨hrnd, hlnd, hsub, hbnd⟩)
    rw [G1, List.drop_left, List.map_map]
    have hid : (Prod.fst ∘ fun cid => ((cid, errAll) : Nat × RelArg)) = id := rfl
    rw [hid, List.map_id]
    exact h4 cid err

/-- Witness for C4 on the state reached by two acquisitions. -/
theorem reachable_registration_invariant_witness :
    (runOps [PoolOp.connectOp, PoolOp.connectOp]).registrations.length
      ≤ totalCount (runOps [PoolOp.connectOp, PoolOp.connectOp])
        - (runOps [PoolOp.connectOp, PoolOp.connectOp]).idleCount :=
  (reachable_registration_invariant [PoolOp.connectOp, PoolOp.connectOp]).1

/-- C5: healthCheck on an ended pool returns exactly the record with healthy
false, the ended message, details naming the manager with ended true and no
counters, no latency, and timestamp equal to start; the returned pool state
is the input state unchanged, so no acquisition or probe is attempted. -/
theorem healthCheck_on_ended_pool (name : String) (s : PoolState) (oc : ProbeOutcome)
    (start now : Nat) (he : s.ended = true) :
    healthCheck name s oc start now =
      .ok ({ healthy := false
             message := "Connection pool has ended"
             details := { name := name, ended := some true }
             timestamp := start }, s) :=
  healthCheck_ended_eq name s oc start now he

/-- Concrete ended pool state. -/
def c5State : PoolState :=
  { ended := true, idleCount := 0, waitingCount := 0, leased := [],
    registrations := [], forceLog := [], nextId := 0 }

/-- Witness for C5 at a concrete ended state. -/
theorem healthCheck_on_ended_pool_witness :
    c5State.ended = true ∧
    healthCheck "db" c5State .success 3 10 =
      .ok ({ healthy := false
             message := "Connection pool has ended"
             details := { name := "db", ended := some true }
             timestamp := 3 }, c5State) :=
  ⟨rfl, healthCheck_on_ended_pool "db" c5State .success 3 10 rfl⟩

/-- C6: healthCheck on a pool that has not ended, when the probe query
succeeds, releases the acquired client cleanly (the lease and registration
sets return to their previous values and the client returns to the idle set,
not discarded) and returns healthy true with latency equal to now minus start
(nonnegative when the clock does not run backwards), timestamp equal to
start, and details carrying the manager name, the pool counters, and the
latency rendered as a millisecond string. -/
theorem healthCheck_success_result (name : String) (s : PoolState) (start now : Nat)
    (he : s.ended = false) (h : Inv s) (hclock : start ≤ now) :
    ∃ s', healthCheck name s .success start now =
        .ok ({ healthy := true
               message := "PostgreSQL connection is healthy"
               details := { name := name
                            totalCount := some (totalCount s')
                            idleCount := some s'.idleCount
                            waitingCount := some s'.waitingCount
                            latency := some (toString ((now : Int) - (start : Int)) ++ "ms") }
               latency := some ((now : Int) - (start : Int))
               timestamp := start }, s') ∧
      0 ≤ (now : Int) - (start : Int) ∧
      s'.leased = s.leased ∧
      s'.registrations = s.registrations ∧
      s'.idleCount = (if 0 < s.idleCount then s.idleCount - 1 else s.idleCount) + 1 ∧
      s'.idleCount ≤ totalCount s' := by
  obtain ⟨hl, hr, hi, hw, hen, hf⟩ := probeRelease_state s .noarg h
  refine ⟨probeRelease s .noarg, healthCheck_success_eq name s start now he, ?_, hl, hr,
    ?_, ?_⟩
  · omega
  · simpa using hi
  · exact Nat.le_add_right _ _

/-- Witness for C6 at a concrete non-ended state. -/
theorem healthCheck_success_result_witness :
    c1State.ended = false ∧ Inv c1State ∧ (3 : Nat) ≤ 10 ∧
    ∃ s', healthCheck "db" c1State .success 3 10 =
        .ok ({ healthy := true
               message := "PostgreSQL connection is healthy"
               details := { name := "db"
                            totalCount := some (totalCount s')
                            idleCount := some s'.idleCount
                            waitingCount := some s'.waitingCount
                            latency := some (toString (((10 : Nat) : Int) - ((3 : Nat) : Int)) ++ "ms") }
               latency := some (((10 : Nat) : Int) - ((3 : Nat) : Int))
               timestamp := 3 }, s') ∧
      0 ≤ ((10 : Nat) : Int) - ((3 : Nat) : Int) := by
  refine ⟨rfl, by decide, by decide, ?_⟩
  obtain ⟨s', heq, hpos, -, -, -, -⟩ :=
    healthCheck_success_result "db" c1State 3 10 rfl (by decide) (by decide)
  exact ⟨s', heq, hpos⟩

/-- C7: healthCheck on a pool that has not ended reports a probe-query
failure by releasing the acquired client with the error flag (the connection
is discarded: the lease and registration sets return to their previous values
and the client does not return to the idle set) and returning healthy false
with a message naming the failure reason, details carrying the manager name,
the pool counters and the thrown error's stack or string rendering, a
latency, and timestamp equal to start; a failure of the acquisition itself is
caught the same way and reported in the same unhealthy shape with the pool
state untouched rather than thrown. -/
theorem healthCheck_failure_result (name : String) (s : PoolState) (e : JsError)
    (start now : Nat) (he : s.ended = false) (h : Inv s) :
    (∃ s', healthCheck name s (.queryFail e) start now =
        .ok ({ healthy := false
               message := "PostgreSQL health check failed: " ++ e.jsMessage
               details := { name := name
                            totalCount := some (totalCount s')
                            idleCount := some s'.idleCount
                            waitingCount := some s'.waitingCount
                            error := some e.stackOrString }
               latency := some ((now : Int) - (start : Int))
               timestamp := start }, s') ∧
      s'.leased = s.leased ∧
      s'.registrations = s.registrations ∧
      s'.idleCount = (if 0 < s.idleCount then s.idleCount - 1 else s.idleCount)) ∧
    healthCheck name s (.acquireFail e) start now =
        .ok ({ healthy := false
               message := "PostgreSQL health check failed: " ++ e.jsMessage
               details := { name := name
                            totalCount := some (totalCount s)
                            idleCount := some s.idleCount
                            waitingCount := some s.waitingCount
                            error := some e.stackOrString }
               latency := some ((now : Int) - (start : Int))
               timestamp := start }, s) := by
  obtain ⟨hl, hr, hi, hw, hen, hf⟩ := probeRelease_state s (.boolArg true) h
  refine ⟨⟨probeRelease s (.boolArg true),
      healthCheck_queryFail_eq name s e start now he, hl, hr, ?_⟩,
    healthCheck_acquireFail_eq name s e start now he⟩
  simpa using hi

/-- Witness for C7 at a concrete non-ended state. -/
theorem healthCheck_failure_result_witness :
    c1State.ended = false ∧ Inv c1State ∧
    ∃ s', s'.leased = c1State.leased ∧
      healthCheck "db" c1State (.queryFail (.errorInstance "boom" "trace")) 3 10 =
        .ok ({ healthy := false
               message := "PostgreSQL health check failed: boom"
               details := { name := "db"
                            totalCount := some (totalCount s')
                            idleCount := some s'.idleCount
                            waitingCount := some s'.waitingCount
                            error := some "trace" }
               latency := some (((10 : Nat) : Int) - ((3 : Nat) : Int))
               timestamp := 3 }, s') := by
  refine ⟨rfl, by decide, ?_⟩
  obtain ⟨⟨s', heq, hl, -, -⟩, -⟩ :=
    healthCheck_failure_result "db" c1State (.errorInstance "boom" "trace") 3 10 rfl
      (by decide)
  exact ⟨s', hl, heq⟩

/-- C8: getManager raises ManagerNotFound when the registry resolves nothing
for the (defaulted) name — never silently returning nothing — raises
InvalidManagerConfig when the resolved object is not a PgManager instance,
and otherwise returns the resolved manager unchanged. -/
theorem getManager_lookup_faithful (reg : Registry) (nm : Option String) :
    (reg.resolveManager nm = none →
        getManager reg nm
          = .error (.managerNotFound (jsStringOr nm reg.defaultManager))) ∧
    (∀ t, reg.resolveManager nm = some (.otherManager t) →
        getManager reg nm = .error (.invalidManagerConfig
          ("Manager \"" ++ jsStringOr nm reg.defaultManager ++
            "\" is not instance of PGManager"))) ∧
    (∀ m, reg.resolveManager nm = some (.pgManagerEntry m) →
        getManager reg nm = .ok m) := by
  refine ⟨?_, ?_, ?_⟩
  · intro h
    unfold getManager
    rw [h]
  · intro t h
    unfold getManager
    rw [h]
  · intro m h
    unfold getManager
    rw [h]

/-- Registry resolving no manager at all. -/
def c8Registry : Registry :=
  { defaultManager := "main", managers := fun _ => none }

/-- Witness for C8 on a registry that resolves nothing. -/
theorem getManager_lookup_witness :
    c8Registry.resolveManager (some "nope") = none ∧
    getManager c8Registry (some "nope") = .error (.managerNotFound "nope") :=
  ⟨rfl, (getManager_lookup_faithful c8Registry (some "nope")).1 rfl⟩

/-- C9: getConnection resolves through the registry collaborator the same way
as getManager — ManagerNotFound whenever the registry yields nothing for the
(defaulted) name, the capability check's InvalidManagerConfig propagating
unchanged when the resolved object is not a pool-backed manager — and
otherwise returns the client acquired from the resolved manager's pool. -/
theorem getConnection_lookup_faithful (reg : Registry) (nm : Option String) :
    (reg.resolveManager nm = none →
        getConnection reg nm
          = .error (.managerNotFound (jsStringOr nm reg.defaultManager))) ∧
    (∀ m, reg.resolveManager nm = some (.pgManagerEntry m) →
        getConnection reg nm = .ok (connectPromise m.pool).1) ∧
    (∀ t, reg.resolveManager nm = some (.otherManager t) →
        getConnection reg nm = .error (.invalidManagerConfig
          ("Manager \"" ++ jsStringOr nm reg.defaultManager ++
            "\" is not instance of PGManager"))) ∧
    (reg.resolveConnection nm = .ok none →
        getConnection reg nm
          = .error (.managerNotFound (jsStringOr nm reg.defaultManager))) ∧
    (∀ c, reg.resolveConnection nm = .ok (some c) → getConnection reg nm = .ok c) := by
  refine ⟨?_, ?_, ?_, ?_, ?_⟩
  · intro h
    unfold getConnection Registry.resolveConnection
    rw [h]
  · intro m h
    unfold getConnection Registry.resolveConnection
    rw [h]
  · intro t h
    unfold getConnection Registry.resolveConnection
    rw [h]
  · intro h
    unfold getConnection
    rw [h]
  · intro c h
    unfold getConnection
    rw [h]

/-- Registry resolving no connection at all. -/
def c9Registry : Registry :=
  { defaultManager := "other", managers := fun _ => none }

/-- Witness for C9 on a registry that yields nothing. -/
theorem getConnection_lookup_witness :
    c9Registry.resolveManager (some "nope") = none ∧
    getConnection c9Registry (some "nope") = .error (.managerNotFound "nope") :=
  ⟨rfl, (getConnection_lookup_faithful c9Registry (some "nope")).1 rfl⟩

theorem hexDigitChar_mem (n : Nat) (h : n < 16) :
    hexDigitChar n ∈ "0123456789abcdef".data := by
  interval_cases n <;> decide

theorem byteToHex_data (b : Nat) :
    (byteToHex b).data = [hexDigitChar (b / 16 % 16), hexDigitChar (b % 16)] := rfl

theorem bytesToHex_chars : ∀ (bs : List Nat), ∀ c ∈ (bytesToHex bs).data,
    c ∈ "0123456789abcdef".data
  | [], c, hc => absurd hc (by simp [bytesToHex])
  | b :: t, c, hc => by
      simp only [bytesToHex, String.data_append, byteToHex_data, List.mem_append,
        List.mem_cons, List.not_mem_nil, or_false] at hc
      rcases hc with (hc | hc) | hc
      · exact hc ▸ hexDigitChar_mem _ (Nat.mod_lt _ (by norm_num))
      · exact hc ▸ hexDigitChar_mem _ (Nat.mod_lt _ (by norm_num))
      · exact bytesToHex_chars t c hc

theorem bytesToHex_length : ∀ (bs : List Nat), (bytesToHex bs).length = 2 * bs.length
  | [] => rfl
  | b :: t => by
      simp only [bytesToHex, String.length_append, List.length_cons]
      rw [bytesToHex_length t]
      have hb : (byteToHex b).length = 2 := rfl
      rw [hb]
      omega

theorem generatedName_ne_empty (nowMs : Nat) (hex : String) :
    generatedName nowMs hex ≠ "" := by
  intro h
  have hlen := congrArg String.length h
  rw [generatedName, String.length_append, String.length_append,
    String.length_append] at hlen
  have h3 : ("Pg " : String).length = 3 := rfl
  rw [h3] at hlen
  have h0 : ("" : String).length = 0 := rfl
  rw [h0] at hlen
  omega

/-- C10: the PgManager constructor keeps a truthy caller-supplied name
unchanged, assigns for an absent or empty (falsy) supplied name the generated
identity — the literal prefix, the construction timestamp, an underscore and
twelve lowercase hexadecimal characters rendered from six random bytes — and
consequently never assigns the empty string as a manager's name. -/
theorem manager_name_assignment (settings : PgManagerArg) (nowMs : Nat)
    (bs : List Nat) (hlen : bs.length = 6) :
    (∀ str, settings.name = some str → str ≠ "" →
        managerNameOf settings nowMs bs = str) ∧
    ((settings.name = none ∨ settings.name = some "") →
        managerNameOf settings nowMs bs
            = "Pg " ++ toString nowMs ++ "_" ++ bytesToHex bs ∧
        (bytesToHex bs).length = 12 ∧
        (∀ c ∈ (bytesToHex bs).data, c ∈ "0123456789abcdef".data)) ∧
    managerNameOf settings nowMs bs ≠ "" := by
  have hlen12 : (bytesToHex bs).length = 12 := by
    rw [bytesToHex_length, hlen]
  refine ⟨?_, ?_, ?_⟩
  · intro str hs hne
    unfold managerNameOf jsStringOr
    rw [hs]
    simp [hne]
  · intro hcase
    refine ⟨?_, hlen12, bytesToHex_chars bs⟩
    rcases hcase with hc | hc
    · unfold managerNameOf jsStringOr generatedName
      rw [hc]
    · unfold managerNameOf jsStringOr generatedName
      rw [hc]
      simp
  · unfold managerNameOf jsStringOr
    cases hn : settings.name with
    | none => exact generatedName_ne_empty nowMs (bytesToHex bs)
    | some str =>
        by_cases hstr : str = ""
        · rw [hstr]
          simp only [if_pos]
          exact generatedName_ne_empty nowMs (bytesToHex bs)
        · simp only [if_neg hstr]
          exact hstr

/-- Witness for C10 with an absent supplied name and six concrete bytes. -/
theorem manager_name_assignment_witness :
    ([0, 255, 16, 171, 205, 239] : List Nat).length = 6 ∧
    managerNameOf ⟨none⟩ 170000 [0, 255, 16, 171, 205, 239] ≠ "" :=
  ⟨rfl, (manager_name_assignment ⟨none⟩ 170000 [0, 255, 16, 171, 205, 239] rfl).2.2⟩

end StorehousePg
